import Mathlib

/-!
Shallow embedding of the VIN-retrieval stack: the fixed-layout CAN frame
codec (`struct` format `=LB3x8s`), the VIN request builder
(`send_vin_request`), the BAM reassembly state machine
(`receive_bam_vin`), and the request/response handlers of the actual DLL
and the interposed shim DLL, together with theorems settling the frozen
claims about them.
-/

namespace RP1210

/-! ### Byte-level helpers for the wire layout -/

/-- Little-endian byte decomposition of a natural number into `w` bytes,
as `struct.pack` lays out an unsigned integer. -/
def natToLE : Nat → Nat → List Nat
  | 0, _ => []
  | w + 1, n => n % 256 :: natToLE w (n / 256)

/-- Little-endian byte recomposition, inverse of `natToLE`. -/
def leToNat : List Nat → Nat
  | [] => 0
  | b :: bs => b + 256 * leToNat bs

/-! ### FrameCodec: `can_frame_fmt = "=LB3x8s"`
4-byte little-endian identifier, 1-byte DLC, 3 padding bytes, 8-byte data. -/

/-- Embedding of `struct.pack(can_frame_fmt, can_id, dlc, payload)`: fails when the
identifier exceeds the 4-byte range or the DLC the 1-byte range; the
payload is zero-padded to 8 bytes (as `8s` and `ljust` do). -/
def encodeFrame (can_id dlc : Nat) (payload : List Nat) : Option (List Nat) :=
  if can_id < 2 ^ 32 ∧ dlc < 2 ^ 8 ∧ payload.length ≤ 8 then
    some (natToLE 4 can_id ++ [dlc] ++ [0, 0, 0] ++
      (payload ++ List.replicate (8 - payload.length) 0))
  else none

/-- Embedding of `struct.unpack(can_frame_fmt, cf)`: fails unless the record is exactly
16 bytes; yields the identifier, the DLC and the 8-byte data field. -/
def decodeFrame (bs : List Nat) : Option (Nat × Nat × List Nat) :=
  if bs.length = 16 then
    some (leToNat (bs.take 4), bs.getD 4 0, bs.drop 8)
  else none

/-! ### RequestEncoder: send_vin_request -/

/-- The constant `socket.CAN_EFF_FLAG`, the extended-frame-format marker bit. -/
def CAN_EFF_FLAG : Nat := 0x80000000

/-- The frame built by `send_vin_request`:
`can_id = 0x18EA00F9 | CAN_EFF_FLAG`, DLC 3, data
`[0xEC, 0xFE, 0x00]` left-justified to 8 bytes with zeros. -/
def send_vin_request : Option (List Nat) :=
  encodeFrame (Nat.lor 0x18EA00F9 CAN_EFF_FLAG) 3
    ([0xEC, 0xFE, 0x00] ++ List.replicate 5 0)

/-! ### Reassembler: receive_bam_vin -/

/-- A decoded CAN frame as `struct.unpack` returns it. -/
structure CanFrame where
  can_id : Nat
  dlc : Nat
  data : List Nat
deriving DecidableEq

/-- Arbitration id: `arb_id = can_id & 0x1FFFFFFF`. -/
def arbId (can_id : Nat) : Nat := Nat.land can_id 0x1FFFFFFF

/-- Parameter group number: `pgn = (arb_id >> 8) & 0xFFFF`. -/
def pgnOf (can_id : Nat) : Nat := Nat.land (Nat.shiftRight (arbId can_id) 8) 0xFFFF

/-- Source address: `src = arb_id & 0xFF`. -/
def srcOf (can_id : Nat) : Nat := Nat.land (arbId can_id) 0xFF

/-- The constant `expected_src = 0x00` in `receive_bam_vin`. -/
def expected_src : Nat := 0x00

/-- The mutable locals of `receive_bam_vin`'s loop. -/
structure RState where
  vin_bytes : List Nat
  total_length : Nat
  expected_packets : Nat
  collecting : Bool
  received_packets : Nat
deriving DecidableEq

/-- Initial loop state of `receive_bam_vin`. -/
def initState : RState :=
  { vin_bytes := [], total_length := 0, expected_packets := 0,
    collecting := false, received_packets := 0 }

/-- The guard of the BAM control-packet branch:
`pgn == 0xECFF and data[0] == 0x20 and src == expected_src and data[5:8] == bytes([0xEC, 0xFE, 0x00])`. -/
def isControl (f : CanFrame) : Bool :=
  pgnOf f.can_id == 0xECFF && f.data.getD 0 0 == 0x20 &&
    srcOf f.can_id == expected_src && (f.data.drop 5).take 3 == [0xEC, 0xFE, 0x00]

/-- One iteration of `receive_bam_vin`'s loop body on a decoded frame:
the new state, paired with `true` when the loop `break`s. -/
def stepFrame (s : RState) (f : CanFrame) : RState × Bool :=
  if isControl f then
    ({ vin_bytes := [], total_length := f.data.getD 1 0,
       expected_packets := f.data.getD 2 0, collecting := true,
       received_packets := 0 }, false)
  else if pgnOf f.can_id == 0xEBFF && s.collecting && srcOf f.can_id == expected_src then
    let payload := (f.data.drop 1).take 7
    let vb := s.vin_bytes ++ payload
    ({ s with vin_bytes := vb, received_packets := s.received_packets + 1 },
      decide (vb.length ≥ s.total_length))
  else (s, false)

/-- Runs the receive loop over a finite stream of decoded frames; yields
the state at the `break` (`none` when the stream ends first — the real
loop would block on the socket). -/
def runBam (s : RState) : List CanFrame → Option RState
  | [] => none
  | f :: fs =>
    if (stepFrame s f).2 then some (stepFrame s f).1
    else runBam (stepFrame s f).1 fs

/-- Embedding of the decode call with the ascii codec and errors ignored: bytes ≥ 0x80 are skipped,
the rest become their ASCII characters. -/
def asciiDecodeIgnore (bs : List Nat) : String :=
  String.mk ((bs.filter (fun b => decide (b < 128))).map Char.ofNat)

/-- The terminal read: the first 17 accumulated bytes, decoded permissively. -/
def bamResult (s : RState) : String := asciiDecodeIgnore (s.vin_bytes.take 17)

/-- Embedding of `receive_bam_vin` over a finite stream of decoded frames. -/
def receive_bam_vin (fs : List CanFrame) : Option String :=
  (runBam initState fs).map bamResult

/-! ### TamperRule and the request/response handlers -/

/-- The tamper rule of `shimdll_socket_server`: keep the first 10 characters, append the fixed marker. -/
def tamperRule (v : String) : String :=
  String.mk (v.data.take 10) ++ "HACKED123"

/-- Session body of `actualdll_socket_server`, given the VIN the CAN layer
yields: answer only the literal token, else send nothing. -/
def actualHandle (vin : String) (req : String) : Option String :=
  if req = "VIN_REQUEST" then some vin else none

/-- Session body of `shimdll_socket_server`, given the downstream service
as a function from the forwarded token to its response text: on the
literal token, forward it, tamper the response, return it; else nothing. -/
def shimHandle (downstream : String → String) (req : String) : Option String :=
  if req = "VIN_REQUEST" then some (tamperRule (downstream "VIN_REQUEST")) else none

/-! ### Equivalences for the sequence-number / packet-count independence claim -/

/-- Reassembler states that agree on everything but the (never consulted)
`expected_packets` counter. -/
def sEquiv (s t : RState) : Prop :=
  s.vin_bytes = t.vin_bytes ∧ s.total_length = t.total_length ∧
    s.collecting = t.collecting ∧ s.received_packets = t.received_packets

/-- Decoded 8-byte frames that are identical except possibly in data
byte 0 when the frame carries the transport-data PGN (a DataPacket's
`sequence_number`) and in data byte 2 when it carries the
transport-control PGN (a ControlPacket's `expected_packet_count`). -/
def fEquiv (f g : CanFrame) : Prop :=
  f.can_id = g.can_id ∧ f.dlc = g.dlc ∧
    ∃ b0 b1 b2 b3 b4 b5 b6 b7 a0 a2 : Nat,
      f.data = [b0, b1, b2, b3, b4, b5, b6, b7] ∧
      g.data = [a0, b1, a2, b3, b4, b5, b6, b7] ∧
      (b0 = a0 ∨ pgnOf f.can_id = 0xEBFF) ∧
      (b2 = a2 ∨ pgnOf f.can_id = 0xECFF)

/-! ### Helper lemmas -/

/-- Recomposing the 4-byte little-endian decomposition is the identity
below `2 ^ 32`. -/
theorem leToNat_natToLE_four (n : Nat) (h : n < 2 ^ 32) :
    leToNat (natToLE 4 n) = n := by
  simp only [natToLE, leToNat]
  omega

/-- C8: the frame built by send_vin_request has identifier 0x98EA00F9
(PGN field 0xEA00, address byte 0xF9, extended-format flag = bit 31 set),
length 3, and payload the little-endian 3-byte encoding of 0xFEEC
zero-padded to 8 bytes. -/
theorem send_vin_request_frame :
    send_vin_request =
      some [0xF9, 0x00, 0xEA, 0x98, 3, 0, 0, 0, 0xEC, 0xFE, 0x00, 0, 0, 0, 0, 0] ∧
    decodeFrame [0xF9, 0x00, 0xEA, 0x98, 3, 0, 0, 0, 0xEC, 0xFE, 0x00, 0, 0, 0, 0, 0] =
      some (0x98EA00F9, 3, natToLE 3 0xFEEC ++ List.replicate 5 0) ∧
    pgnOf 0x98EA00F9 = 0xEA00 ∧ srcOf 0x98EA00F9 = 0xF9 ∧
    Nat.testBit 0x98EA00F9 31 = true := by
  refine ⟨by decide, by decide, by decide, by decide, by decide⟩

/-- C4: for every valid triple (identifier, length at most 8, payload of
at most 8 bytes), decoding the 16-byte record produced by encoding it
returns the triple itself with the payload zero-padded to 8 bytes. -/
theorem codec_round_trip (id dlc : Nat) (payload : List Nat)
    (hid : id < 2 ^ 32) (hdlc : dlc ≤ 8) (hp : payload.length ≤ 8) :
    ∃ bs, encodeFrame id dlc payload = some bs ∧ bs.length = 16 ∧
      decodeFrame bs = some (id, dlc, payload ++ List.replicate (8 - payload.length) 0) := by
  refine ⟨natToLE 4 id ++ [dlc] ++ [0, 0, 0] ++
    (payload ++ List.replicate (8 - payload.length) 0), ?_, ?_, ?_⟩
  · rw [encodeFrame, if_pos ⟨hid, by omega, hp⟩]
  · simp only [natToLE, List.length_append, List.length_cons, List.length_nil,
      List.length_replicate]
    omega
  · rw [decodeFrame, if_pos]
    · simp only [natToLE, List.cons_append, List.nil_append, List.take_succ_cons,
        List.take_zero, List.getD_cons_succ, List.getD_cons_zero, List.drop_succ_cons,
        List.drop_zero]
      rw [show leToNat [id % 256, id / 256 % 256, id / 256 / 256 % 256,
        id / 256 / 256 / 256 % 256] = id by simp only [leToNat]; omega]
    · simp only [natToLE, List.cons_append, List.nil_append, List.length_cons,
        List.length_append, List.length_replicate]
      omega

/-- Witness for `codec_round_trip` at the VIN-request frame's own triple. -/
theorem codec_round_trip_witness :
    (0x98EA00F9 : Nat) < 2 ^ 32 ∧ (3 : Nat) ≤ 8 ∧ ([0xEC, 0xFE, 0x00] : List Nat).length ≤ 8 ∧
    ∃ bs, encodeFrame 0x98EA00F9 3 [0xEC, 0xFE, 0x00] = some bs ∧ bs.length = 16 ∧
      decodeFrame bs = some (0x98EA00F9, 3,
        [0xEC, 0xFE, 0x00] ++ List.replicate (8 - ([0xEC, 0xFE, 0x00] : List Nat).length) 0) :=
  ⟨by decide, by decide, by decide,
    codec_round_trip 0x98EA00F9 3 [0xEC, 0xFE, 0x00] (by decide) (by decide) (by decide)⟩

/-- C5: a frame that fails the ControlPacket guard (PGN, control code,
source, or embedded target PGN) and whose PGN or source does not match a
DataPacket leaves the whole Reassembler state unchanged in every state,
with no break. -/
theorem unmatched_frame_ignored (s : RState) (f : CanFrame)
    (hc : isControl f = false)
    (hd : pgnOf f.can_id ≠ 0xEBFF ∨ srcOf f.can_id ≠ expected_src) :
    stepFrame s f = (s, false) := by
  rcases hd with h | h <;> simp [stepFrame, hc, h]

/-- Witness for `unmatched_frame_ignored` at a frame with an unrelated
PGN, fed to the initial state. -/
theorem unmatched_frame_ignored_witness :
    isControl ⟨0x18F00400, 8, [1, 2, 3, 4, 5, 6, 7, 8]⟩ = false ∧
    (pgnOf (0x18F00400 : Nat) ≠ 0xEBFF ∨ srcOf (0x18F00400 : Nat) ≠ expected_src) ∧
    stepFrame initState ⟨0x18F00400, 8, [1, 2, 3, 4, 5, 6, 7, 8]⟩ = (initState, false) :=
  ⟨by decide, Or.inl (by decide),
    unmatched_frame_ignored initState ⟨0x18F00400, 8, [1, 2, 3, 4, 5, 6, 7, 8]⟩
      (by decide) (Or.inl (by decide))⟩

/-- C10: a matching ControlPacket announcing total_length = 0 does not
break the loop: it leaves the machine Collecting with total_length 0, and
the next matching DataPacket triggers the break (length >= 0 holds after
any append). -/
theorem zero_total_needs_data (s : RState) (f g : CanFrame)
    (hf : isControl f = true) (h0 : f.data.getD 1 0 = 0)
    (hg : pgnOf g.can_id = 0xEBFF) (hsrc : srcOf g.can_id = expected_src) :
    (stepFrame s f).2 = false ∧ (stepFrame s f).1.collecting = true ∧
    (stepFrame s f).1.total_length = 0 ∧
    (stepFrame (stepFrame s f).1 g).2 = true := by
  have hstep : stepFrame s f =
      ({ vin_bytes := [], total_length := 0, expected_packets := f.data.getD 2 0,
         collecting := true, received_packets := 0 }, false) := by
    rw [stepFrame, if_pos hf, h0]
  have hgctrl : isControl g = false := by
    simp [isControl, hg]
  rw [hstep]
  refine ⟨rfl, rfl, rfl, ?_⟩
  simp [stepFrame, hgctrl, hg, hsrc]

/-- Witness for `zero_total_needs_data` at a zero-length announcement
followed by one data packet. -/
theorem zero_total_needs_data_witness :
    isControl ⟨0x1CECFF00, 8, [0x20, 0, 1, 0xFF, 0xFF, 0xEC, 0xFE, 0x00]⟩ = true ∧
    ([0x20, 0, 1, 0xFF, 0xFF, 0xEC, 0xFE, 0x00] : List Nat).getD 1 0 = 0 ∧
    pgnOf (0x1CEBFF00 : Nat) = 0xEBFF ∧ srcOf (0x1CEBFF00 : Nat) = expected_src ∧
    ((stepFrame initState ⟨0x1CECFF00, 8, [0x20, 0, 1, 0xFF, 0xFF, 0xEC, 0xFE, 0x00]⟩).2 = false ∧
     (stepFrame initState ⟨0x1CECFF00, 8, [0x20, 0, 1, 0xFF, 0xFF, 0xEC, 0xFE, 0x00]⟩).1.collecting = true ∧
     (stepFrame initState ⟨0x1CECFF00, 8, [0x20, 0, 1, 0xFF, 0xFF, 0xEC, 0xFE, 0x00]⟩).1.total_length = 0 ∧
     (stepFrame (stepFrame initState ⟨0x1CECFF00, 8, [0x20, 0, 1, 0xFF, 0xFF, 0xEC, 0xFE, 0x00]⟩).1
        ⟨0x1CEBFF00, 8, [1, 65, 66, 67, 68, 69, 70, 71]⟩).2 = true) :=
  ⟨by decide, by decide, by decide, by decide,
    zero_total_needs_data initState
      ⟨0x1CECFF00, 8, [0x20, 0, 1, 0xFF, 0xFF, 0xEC, 0xFE, 0x00]⟩
      ⟨0x1CEBFF00, 8, [1, 65, 66, 67, 68, 69, 70, 71]⟩
      (by decide) (by decide) (by decide) (by decide)⟩

/-- The tamper rule moves every string whose length is not 19: its output
always has length `min 10 (length v) + 9`. -/
theorem tamperRule_ne_self (v : String) (h : v.length ≠ 19) : tamperRule v ≠ v := by
  intro he
  have hlen := congrArg String.length he
  have hmin : min 10 v.data.length + 9 = v.length := by
    simpa [tamperRule, String.length_append, String.length_mk, List.length_take] using hlen
  have hdl : v.length = v.data.length := rfl
  omega

/-- C2 counterexample: a length-19 string already ending in the marker is
a fixed point of the tamper rule, so TamperRule(v) = v despite length >= 10. -/
theorem tamper_fixed_point_counterexample :
    (10 : Nat) ≤ ("AAAAAAAAAAHACKED123" : String).length ∧
    tamperRule "AAAAAAAAAAHACKED123" = "AAAAAAAAAAHACKED123" :=
  ⟨by decide, by decide⟩

/-- C2 (amended): for every string v of length >= 10, TamperRule(v)
equals v[0:10] ++ "HACKED123"; and TamperRule(v) differs from v whenever
v's length is not 19 (a length-19 string of the form v[0:10] ++
"HACKED123" is a fixed point). -/
theorem tamper_deterministic (v : String) (h10 : 10 ≤ v.length) :
    tamperRule v = String.mk (v.data.take 10) ++ "HACKED123" ∧
    (v.length ≠ 19 → tamperRule v ≠ v) :=
  ⟨rfl, fun h => tamperRule_ne_self v h⟩

/-- Witness for `tamper_deterministic` at a genuine 17-character VIN. -/
theorem tamper_deterministic_witness :
    (10 : Nat) ≤ ("1HGCM82633A123456" : String).length ∧
    tamperRule "1HGCM82633A123456" =
      String.mk (("1HGCM82633A123456" : String).data.take 10) ++ "HACKED123" ∧
    tamperRule "1HGCM82633A123456" ≠ "1HGCM82633A123456" :=
  ⟨by decide, (tamper_deterministic "1HGCM82633A123456" (by decide)).1,
    (tamper_deterministic "1HGCM82633A123456" (by decide)).2 (by decide)⟩

/-- C6 counterexample: when the downstream VIN is already of the tampered
form, the shim returns exactly the original downstream value. -/
theorem shim_returns_original_counterexample :
    shimHandle (fun _ => "AAAAAAAAAAHACKED123") "VIN_REQUEST" =
      some "AAAAAAAAAAHACKED123" := by decide

/-- C6 (amended): on the literal token the shim forwards it downstream
and returns exactly TamperRule(downstream VIN); the returned value differs
from the downstream value whenever that value's length is not 19 (in
particular for every genuine 17-character VIN). -/
theorem shim_tampers (d : String → String) :
    shimHandle d "VIN_REQUEST" = some (tamperRule (d "VIN_REQUEST")) ∧
    ((d "VIN_REQUEST").length ≠ 19 →
      shimHandle d "VIN_REQUEST" ≠ some (d "VIN_REQUEST")) := by
  constructor
  · rw [shimHandle, if_pos rfl]
  · intro h19 he
    rw [shimHandle, if_pos rfl] at he
    exact tamperRule_ne_self _ h19 (Option.some.inj he)

/-- Witness for `shim_tampers` at a downstream service that yields a
genuine 17-character VIN. -/
theorem shim_tampers_witness :
    shimHandle (fun _ => "1HGCM82633A123456") "VIN_REQUEST" =
      some (tamperRule "1HGCM82633A123456") ∧
    shimHandle (fun _ => "1HGCM82633A123456") "VIN_REQUEST" ≠
      some "1HGCM82633A123456" :=
  ⟨(shim_tampers (fun _ => "1HGCM82633A123456")).1,
    (shim_tampers (fun _ => "1HGCM82633A123456")).2 (by decide)⟩

/-- C7: on any token other than the literal VIN_REQUEST, both the real
DLL server and the shim send nothing back, and their (absent) answers are
independent of the CAN-layer VIN and of the downstream service — no
retrieval and no forwarding influences the session. -/
theorem mismatched_token_silent (vin vin' req : String) (d d' : String → String)
    (h : req ≠ "VIN_REQUEST") :
    actualHandle vin req = none ∧ shimHandle d req = none ∧
    actualHandle vin req = actualHandle vin' req ∧
    shimHandle d req = shimHandle d' req := by
  simp [actualHandle, shimHandle, h]

/-- Witness for `mismatched_token_silent` at the token "PING". -/
theorem mismatched_token_silent_witness :
    ("PING" : String) ≠ "VIN_REQUEST" ∧
    (actualHandle "1HGCM82633A123456" "PING" = none ∧
     shimHandle (fun _ => "1HGCM82633A123456") "PING" = none ∧
     actualHandle "1HGCM82633A123456" "PING" = actualHandle "OTHERVIN" "PING" ∧
     shimHandle (fun _ => "1HGCM82633A123456") "PING" =
       shimHandle (fun _ => "OTHERVIN") "PING") :=
  ⟨by decide, mismatched_token_silent "1HGCM82633A123456" "OTHERVIN" "PING"
    (fun _ => "1HGCM82633A123456") (fun _ => "OTHERVIN") (by decide)⟩

/-- A step that breaks the loop leaves an accumulator at least as long as
the announced total length: the break test is exactly that comparison. -/
theorem stepFrame_break_le (s : RState) (f : CanFrame) (s1 : RState)
    (h : stepFrame s f = (s1, true)) : s1.total_length ≤ s1.vin_bytes.length := by
  rw [stepFrame] at h
  split at h
  · exact absurd (congrArg Prod.snd h) (by simp)
  · split at h
    · have hb := congrArg Prod.snd h
      have hs := congrArg Prod.fst h
      simp only at hb hs
      rw [← hs]
      simpa using of_decide_eq_true hb
    · exact absurd (congrArg Prod.snd h) (by simp)

/-- Whenever the receive loop returns, the returned state's accumulator
length is at least the announced total length. -/
theorem runBam_complete_le (fs : List CanFrame) :
    ∀ s s' : RState, runBam s fs = some s' →
      s'.total_length ≤ s'.vin_bytes.length := by
  induction fs with
  | nil => intro s s' h; simp [runBam] at h
  | cons f fs ih =>
    intro s s' h
    rw [runBam] at h
    rcases hstep : stepFrame s f with ⟨s1, b⟩
    rw [hstep] at h
    cases b
    · rw [if_neg (by simp)] at h
      exact ih s1 s' h
    · rw [if_pos (by simp)] at h
      exact (Option.some.inj h) ▸ stepFrame_break_le s f s1 hstep

/-- C1 counterexample: a retrieval announcing total_length = 5 that
accumulates one 7-byte chunk completes and yields all 7 characters, not
the first min(5, 17) = 5 of them. -/
theorem truncation_counterexample :
    receive_bam_vin
      [⟨0x1CECFF00, 8, [0x20, 5, 1, 0xFF, 0xFF, 0xEC, 0xFE, 0x00]⟩,
       ⟨0x1CEBFF00, 8, [1, 65, 66, 67, 68, 69, 70, 71]⟩] = some "ABCDEFG" ∧
    runBam initState
      [⟨0x1CECFF00, 8, [0x20, 5, 1, 0xFF, 0xFF, 0xEC, 0xFE, 0x00]⟩,
       ⟨0x1CEBFF00, 8, [1, 65, 66, 67, 68, 69, 70, 71]⟩] =
      some ⟨[65, 66, 67, 68, 69, 70, 71], 5, 1, true, 1⟩ ∧
    asciiDecodeIgnore (([65, 66, 67, 68, 69, 70, 71] : List Nat).take (min 5 17)) = "ABCDE" ∧
    ("ABCDEFG" : String) ≠ "ABCDE" := by
  refine ⟨by decide, by decide, by decide, by decide⟩

/-- C1 (amended): when the loop returns, the VIN yielded is the first 17
accumulated bytes (all of them when fewer) decoded as ASCII with
undecodable bytes skipped; the accumulated count is at least total_length
at that point, but no truncation to total_length is applied — only the
cap at 17. -/
theorem complete_returns_first17 (fs : List CanFrame) (s' : RState)
    (h : runBam initState fs = some s') :
    receive_bam_vin fs = some (asciiDecodeIgnore (s'.vin_bytes.take 17)) ∧
    s'.total_length ≤ s'.vin_bytes.length := by
  constructor
  · rw [receive_bam_vin, h]; rfl
  · exact runBam_complete_le fs initState s' h

/-- Witness for `complete_returns_first17` at the short-announcement
stream. -/
theorem complete_returns_first17_witness :
    runBam initState
      [⟨0x1CECFF00, 8, [0x20, 5, 1, 0xFF, 0xFF, 0xEC, 0xFE, 0x00]⟩,
       ⟨0x1CEBFF00, 8, [1, 65, 66, 67, 68, 69, 70, 71]⟩] =
      some ⟨[65, 66, 67, 68, 69, 70, 71], 5, 1, true, 1⟩ ∧
    receive_bam_vin
      [⟨0x1CECFF00, 8, [0x20, 5, 1, 0xFF, 0xFF, 0xEC, 0xFE, 0x00]⟩,
       ⟨0x1CEBFF00, 8, [1, 65, 66, 67, 68, 69, 70, 71]⟩] =
      some (asciiDecodeIgnore ((RState.mk [65, 66, 67, 68, 69, 70, 71] 5 1 true 1).vin_bytes.take 17)) ∧
    (RState.mk [65, 66, 67, 68, 69, 70, 71] 5 1 true 1).total_length ≤
      (RState.mk [65, 66, 67, 68, 69, 70, 71] 5 1 true 1).vin_bytes.length :=
  ⟨by decide,
    (complete_returns_first17
      [⟨0x1CECFF00, 8, [0x20, 5, 1, 0xFF, 0xFF, 0xEC, 0xFE, 0x00]⟩,
       ⟨0x1CEBFF00, 8, [1, 65, 66, 67, 68, 69, 70, 71]⟩]
      (RState.mk [65, 66, 67, 68, 69, 70, 71] 5 1 true 1) (by decide)).1,
    (complete_returns_first17
      [⟨0x1CECFF00, 8, [0x20, 5, 1, 0xFF, 0xFF, 0xEC, 0xFE, 0x00]⟩,
       ⟨0x1CEBFF00, 8, [1, 65, 66, 67, 68, 69, 70, 71]⟩]
      (RState.mk [65, 66, 67, 68, 69, 70, 71] 5 1 true 1) (by decide)).2⟩

/-- C3: a matching ControlPacket announcing total_length 17 and packet
count 3, followed by three matching DataPackets carrying 7, 7 and 3
meaningful ASCII bytes, completes exactly after the third DataPacket and
yields the 17-character string formed by concatenating the chunks in
arrival order. -/
theorem reassembly_correct
    (x1 x2 x3 x4 x5 x6 x7 y1 y2 y3 y4 y5 y6 y7 z1 z2 z3 : Nat)
    (q1 q2 s1 s2 s3 p1 p2 p3 p4 : Nat)
    (ha : ∀ b ∈ [x1, x2, x3, x4, x5, x6, x7, y1, y2, y3, y4, y5, y6, y7, z1, z2, z3],
      b < 128) :
    receive_bam_vin
      [⟨0x1CECFF00, 8, [0x20, 17, 3, q1, q2, 0xEC, 0xFE, 0x00]⟩,
       ⟨0x1CEBFF00, 8, [s1, x1, x2, x3, x4, x5, x6, x7]⟩,
       ⟨0x1CEBFF00, 8, [s2, y1, y2, y3, y4, y5, y6, y7]⟩,
       ⟨0x1CEBFF00, 8, [s3, z1, z2, z3, p1, p2, p3, p4]⟩] =
      some (String.mk
        ([x1, x2, x3, x4, x5, x6, x7, y1, y2, y3, y4, y5, y6, y7, z1, z2, z3].map
          Char.ofNat)) ∧
    runBam initState
      [⟨0x1CECFF00, 8, [0x20, 17, 3, q1, q2, 0xEC, 0xFE, 0x00]⟩,
       ⟨0x1CEBFF00, 8, [s1, x1, x2, x3, x4, x5, x6, x7]⟩,
       ⟨0x1CEBFF00, 8, [s2, y1, y2, y3, y4, y5, y6, y7]⟩] = none := by
  have hcp : pgnOf 0x1CECFF00 = 0xECFF := by decide
  have hcs : srcOf 0x1CECFF00 = 0 := by decide
  have hdp : pgnOf 0x1CEBFF00 = 0xEBFF := by decide
  have hds : srcOf 0x1CEBFF00 = 0 := by decide
  have h0 : stepFrame initState ⟨0x1CECFF00, 8, [0x20, 17, 3, q1, q2, 0xEC, 0xFE, 0x00]⟩ =
      (⟨[], 17, 3, true, 0⟩, false) := by
    simp [stepFrame, isControl, hcp, hcs, expected_src]
  have h1 : stepFrame (⟨[], 17, 3, true, 0⟩ : RState)
      ⟨0x1CEBFF00, 8, [s1, x1, x2, x3, x4, x5, x6, x7]⟩ =
      (⟨[x1, x2, x3, x4, x5, x6, x7], 17, 3, true, 1⟩, false) := by
    simp [stepFrame, isControl, hdp, hds, expected_src]
  have h2 : stepFrame (⟨[x1, x2, x3, x4, x5, x6, x7], 17, 3, true, 1⟩ : RState)
      ⟨0x1CEBFF00, 8, [s2, y1, y2, y3, y4, y5, y6, y7]⟩ =
      (⟨[x1, x2, x3, x4, x5, x6, x7, y1, y2, y3, y4, y5, y6, y7], 17, 3, true, 2⟩, false) := by
    simp [stepFrame, isControl, hdp, hds, expected_src]
  have h3 : stepFrame
      (⟨[x1, x2, x3, x4, x5, x6, x7, y1, y2, y3, y4, y5, y6, y7], 17, 3, true, 2⟩ : RState)
      ⟨0x1CEBFF00, 8, [s3, z1, z2, z3, p1, p2, p3, p4]⟩ =
      (⟨[x1, x2, x3, x4, x5, x6, x7, y1, y2, y3, y4, y5, y6, y7, z1, z2, z3, p1, p2, p3, p4],
        17, 3, true, 3⟩, true) := by
    simp [stepFrame, isControl, hdp, hds, expected_src]
  constructor
  · simp only [receive_bam_vin, runBam, h0, h1, h2, h3, if_true, if_false,
      Bool.false_eq_true, Option.map_some', bamResult, asciiDecodeIgnore,
      List.take_succ_cons, List.take_zero]
    rw [List.filter_eq_self.mpr (fun a hmem => decide_eq_true (ha a hmem))]
  · simp only [runBam, h0, h1, h2, if_true, if_false, Bool.false_eq_true]

/-- Witness for `reassembly_correct` at the VIN "1HGCM82633A123456". -/
theorem reassembly_correct_witness :
    (∀ b ∈ [49, 72, 71, 67, 77, 56, 50, 54, 51, 51, 65, 49, 50, 51, 52, 53, 54], b < 128) ∧
    (receive_bam_vin
      [⟨0x1CECFF00, 8, [0x20, 17, 3, 0xFF, 0xFF, 0xEC, 0xFE, 0x00]⟩,
       ⟨0x1CEBFF00, 8, [1, 49, 72, 71, 67, 77, 56, 50]⟩,
       ⟨0x1CEBFF00, 8, [2, 54, 51, 51, 65, 49, 50, 51]⟩,
       ⟨0x1CEBFF00, 8, [3, 52, 53, 54, 0xFF, 0xFF, 0xFF, 0xFF]⟩] =
      some (String.mk
        ([49, 72, 71, 67, 77, 56, 50, 54, 51, 51, 65, 49, 50, 51, 52, 53, 54].map
          Char.ofNat)) ∧
     runBam initState
      [⟨0x1CECFF00, 8, [0x20, 17, 3, 0xFF, 0xFF, 0xEC, 0xFE, 0x00]⟩,
       ⟨0x1CEBFF00, 8, [1, 49, 72, 71, 67, 77, 56, 50]⟩,
       ⟨0x1CEBFF00, 8, [2, 54, 51, 51, 65, 49, 50, 51]⟩] = none) :=
  ⟨by decide,
    reassembly_correct 49 72 71 67 77 56 50 54 51 51 65 49 50 51 52 53 54
      0xFF 0xFF 1 2 3 0xFF 0xFF 0xFF 0xFF (by decide)⟩

/-- Related frames produce related successor states and the same break
decision: the possibly-differing bytes are a DataPacket's sequence number
(read but discarded) and a ControlPacket's packet count (stored in the
never-consulted `expected_packets` field). -/
theorem stepFrame_equiv (s t : RState) (f g : CanFrame)
    (hs : sEquiv s t) (hf : fEquiv f g) :
    sEquiv (stepFrame s f).1 (stepFrame t g).1 ∧
    (stepFrame s f).2 = (stepFrame t g).2 := by
  obtain ⟨hvb, htl, hcl, hrp⟩ := hs
  obtain ⟨hid, hdlc, b0, b1, b2, b3, b4, b5, b6, b7, a0, a2, hfd, hgd, h0, h2⟩ := hf
  have hctrl : isControl f = isControl g := by
    rcases h0 with h0 | h0
    · simp [isControl, ← hid, hfd, hgd, h0]
    · simp [isControl, ← hid, hfd, hgd, h0]
  by_cases hc : isControl f = true
  · rw [stepFrame, if_pos hc, stepFrame, if_pos (hctrl ▸ hc)]
    refine ⟨⟨rfl, ?_, rfl, rfl⟩, rfl⟩
    simp [hfd, hgd]
  · have hcg : isControl g = false := by rw [← hctrl]; exact Bool.not_eq_true _ ▸ hc
    have hcf : isControl f = false := Bool.not_eq_true _ ▸ hc
    rw [stepFrame, stepFrame, hcf, hcg]
    simp only [Bool.false_eq_true, if_false]
    by_cases hd : (pgnOf f.can_id == 0xEBFF && s.collecting &&
        srcOf f.can_id == expected_src) = true
    · have hd' : (pgnOf g.can_id == 0xEBFF && t.collecting &&
          srcOf g.can_id == expected_src) = true := by
        rw [← hid, ← hcl]; exact hd
      rw [if_pos hd, if_pos hd']
      have hb2 : b2 = a2 := by
        rcases h2 with h2 | h2
        · exact h2
        · exfalso
          have hpgn : pgnOf f.can_id = 0xEBFF := by
            have h1 := ((Bool.and_eq_true _ _).mp ((Bool.and_eq_true _ _).mp hd).1).1
            exact eq_of_beq h1
          rw [h2] at hpgn
          exact absurd hpgn (by decide)
      subst hb2
      refine ⟨⟨?_, htl, hcl, ?_⟩, ?_⟩
      · simp [hfd, hgd, hvb]
      · simp [hrp]
      · simp [hfd, hgd, hvb, htl]
    · have hd' : (pgnOf g.can_id == 0xEBFF && t.collecting &&
          srcOf g.can_id == expected_src) ≠ true := by
        rw [← hid, ← hcl]; exact hd
      rw [if_neg hd, if_neg hd']
      exact ⟨⟨hvb, htl, hcl, hrp⟩, rfl⟩

/-- Pointwise related frame streams drive related states to the same
accumulator contents, completing at the same stream position. -/
theorem runBam_equiv (fs gs : List CanFrame) (h : List.Forall₂ fEquiv fs gs) :
    ∀ s t, sEquiv s t →
      (runBam s fs).map RState.vin_bytes = (runBam t gs).map RState.vin_bytes := by
  induction h with
  | nil => intro s t _; rfl
  | @cons f g fs' gs' hfg htl ih =>
    intro s t hst
    have hstep := stepFrame_equiv s t f g hst hfg
    rw [runBam, runBam, hstep.2]
    by_cases hb : (stepFrame t g).2 = true
    · rw [if_pos hb, if_pos hb]
      simp only [Option.map_some']
      exact congrArg some hstep.1.1
    · rw [if_neg hb, if_neg hb]
      exact ih (stepFrame s f).1 (stepFrame t g).1 hstep.1

/-- C9: the reassembled VIN is independent of DataPacket byte 0
(sequence_number) and ControlPacket byte 2 (expected_packet_count): two
frame streams identical except in those bytes yield the same VIN and
complete after the same number of frames. -/
theorem seq_and_count_independent (fs gs : List CanFrame)
    (h : List.Forall₂ fEquiv fs gs) :
    receive_bam_vin fs = receive_bam_vin gs ∧
    ∀ n, (runBam initState (fs.take n)).isSome =
      (runBam initState (gs.take n)).isSome := by
  have hinit : sEquiv initState initState := ⟨rfl, rfl, rfl, rfl⟩
  constructor
  · have hmap := runBam_equiv fs gs h initState initState hinit
    have hsplit : ∀ o : Option RState, o.map bamResult =
        (o.map RState.vin_bytes).map (fun vb => asciiDecodeIgnore (vb.take 17)) := by
      intro o; cases o <;> rfl
    rw [receive_bam_vin, receive_bam_vin, hsplit, hsplit, hmap]
  · intro n
    have hmap := runBam_equiv (fs.take n) (gs.take n) (List.forall₂_take n h)
      initState initState hinit
    have hss := congrArg Option.isSome hmap
    simpa [Option.isSome_map'] using hss

/-- Witness for `seq_and_count_independent`: streams differing in the
control packet's count byte (1 vs 99) and the data packet's sequence
byte (1 vs 9). -/
theorem seq_and_count_independent_witness :
    receive_bam_vin
      [⟨0x1CECFF00, 8, [0x20, 7, 1, 0, 0, 0xEC, 0xFE, 0x00]⟩,
       ⟨0x1CEBFF00, 8, [1, 72, 69, 76, 76, 79, 33, 33]⟩] =
    receive_bam_vin
      [⟨0x1CECFF00, 8, [0x20, 7, 99, 0, 0, 0xEC, 0xFE, 0x00]⟩,
       ⟨0x1CEBFF00, 8, [9, 72, 69, 76, 76, 79, 33, 33]⟩] ∧
    (runBam initState ([⟨0x1CECFF00, 8, [0x20, 7, 1, 0, 0, 0xEC, 0xFE, 0x00]⟩,
       ⟨0x1CEBFF00, 8, [1, 72, 69, 76, 76, 79, 33, 33]⟩].take 1)).isSome =
    (runBam initState ([⟨0x1CECFF00, 8, [0x20, 7, 99, 0, 0, 0xEC, 0xFE, 0x00]⟩,
       ⟨0x1CEBFF00, 8, [9, 72, 69, 76, 76, 79, 33, 33]⟩].take 1)).isSome :=
  have hfa : List.Forall₂ fEquiv
      [⟨0x1CECFF00, 8, [0x20, 7, 1, 0, 0, 0xEC, 0xFE, 0x00]⟩,
       ⟨0x1CEBFF00, 8, [1, 72, 69, 76, 76, 79, 33, 33]⟩]
      [⟨0x1CECFF00, 8, [0x20, 7, 99, 0, 0, 0xEC, 0xFE, 0x00]⟩,
       ⟨0x1CEBFF00, 8, [9, 72, 69, 76, 76, 79, 33, 33]⟩] :=
    List.Forall₂.cons
      ⟨rfl, rfl, 0x20, 7, 1, 0, 0, 0xEC, 0xFE, 0x00, 0x20, 99, rfl, rfl,
        Or.inl rfl, Or.inr (by decide)⟩
      (List.Forall₂.cons
        ⟨rfl, rfl, 1, 72, 69, 76, 76, 79, 33, 33, 9, 69, rfl, rfl,
          Or.inr (by decide), Or.inl rfl⟩
        List.Forall₂.nil)
  ⟨(seq_and_count_independent _ _ hfa).1, (seq_and_count_independent _ _ hfa).2 1⟩

end RP1210
